import Mathlib

/-!
# Verification of `lib/service/icon-delegate.js`

A shallow embedding of the `IconDelegate` class from the file-icons
repository, together with proofs about its behaviour.

Modelling conventions:

* An `Icon` is identified by a natural number; JavaScript reference
  equality between icon objects is equality of these identifiers.
* The sparse `icons` array (indexed by priority) is a `List (Option Icon)`;
  a JavaScript hole (`undefined`) and a stored `null` are both `none`
  (the source only inspects slots with the loose test `null == x` and
  with `=== icon` against a real icon, so the two are indistinguishable).
* Fields that `destroy()` nulls out (`resource`, `icons`) are `Option`s.
* Statements that can throw a `TypeError` (reading a property of `null`,
  or — in strict mode — assigning to the getter-only `currentIcon`
  accessor of a delegated instance) are modelled with `Except Unit`:
  `.error ()` marks the throw.  On every path modelled as `.error` the
  source throws before mutating any field, so no partial state is lost.
* The external collaborators (`Storage`, `IconTables`, `Options`,
  `StrategyManager`) live in an `Env` record.  `StrategyManager.query`
  is an out-of-band request whose effect (zero or more later `add`
  calls) is outside this file; it is recorded as an event and performs
  no synchronous state change, which §6 of the design allows.
* Event emissions and cache writes are collected in an ordered `List Ev`.
* Slot priorities are naturals (§3 of the design: "priority (integer ≥ 0)").
  A negative priority stored in the cache would create a non-index
  property on the JavaScript array, outside the sparse-array domain;
  `deserialise` is modelled as erroring on that unreachable input
  (the serialiser only writes the slot priority of a stored icon).
-/

/-- Icons are opaque objects compared by reference identity. -/
abbrev Icon := Nat

/-- The external `Resource` shape consumed by the delegate. -/
structure Resource where
  path : String
  isDirectory : Bool
  symlink : Bool
  vcsStatus : Bool
deriving DecidableEq, Repr

/-- The cached tuple `[priority, iconIndex, iconClass, ...colourClasses]`
written by `serialise` and read back by `deserialise`. -/
structure CacheEntry where
  priority : Int
  iconIndex : Int
  iconClass : String
  colourClasses : List String
deriving DecidableEq, Repr

/-- Observable effects, in emission order: emitter events, cache-store
writes/deletes, strategy queries and `setImmediate` scheduling. -/
inductive Ev where
  | destroy : Ev
  | iconChange (f t : Option Icon) : Ev
  | masterChange (f t : Bool) : Ev
  | cacheWrite (path : String) (entry : CacheEntry) : Ev
  | cacheDelete (path : String) : Ev
  | query (r : Option Resource) : Ev
  | scheduleRetry : Ev
  | scheduleQuery : Ev
deriving DecidableEq, Repr

/-- The ambient collaborators: `Storage` (cache map plus `frozen` flag),
`IconTables` (`fileIcons` / `directoryIcons`, `none` until loaded) and the
per-icon attributes `icon.icon` (class name) and `icon.colour`. -/
structure Env where
  frozen : Bool
  fileIcons : Option (List Icon)
  directoryIcons : Option (List Icon)
  iconClass : Icon → String
  iconColour : Icon → List String
  cache : String → Option CacheEntry

/-- The own fields of one `IconDelegate` (prototype defaults included:
`destroyed = false`, `currentIcon = null`, `currentPriority = -1`). -/
structure St where
  resource : Option Resource
  emitter : Bool
  disposables : Bool
  icons : Option (List (Option Icon))
  numIcons : Int
  currentIcon : Option Icon
  currentPriority : Int
  destroyed : Bool
deriving DecidableEq, Repr

/-- Fields set by the constructor, before `deserialise` runs. -/
def initSt (r : Resource) : St :=
  { resource := some r
    emitter := true
    disposables := true
    icons := some []
    numIcons := 0
    currentIcon := none
    currentPriority := -1
    destroyed := false }

/-- Reading `l[p]` on a sparse array: out-of-range and `null` slots are `none`. -/
def slotAt (l : List (Option Icon)) (p : Nat) : Option Icon :=
  l.getD p none

/-- Writing `l[p] = v` on a sparse array: assigning past the end pads with holes. -/
def setSlot (l : List (Option Icon)) (p : Nat) (v : Option Icon) :
    List (Option Icon) :=
  (l ++ List.replicate (p + 1 - l.length) none).set p v

/-- Number of non-empty slots of the sparse array. -/
def countSome : List (Option Icon) → Nat
  | [] => 0
  | none :: t => countSome t
  | some _ :: t => countSome t + 1

/-- The scan `for(let i = this.icons.length - 1; i >= 0; --i)` of
`getCurrentIcon`: the non-empty slot with the highest index, if any. -/
def findTop : List (Option Icon) → Option (Nat × Icon)
  | [] => none
  | x :: t =>
    match findTop t with
    | some (i, a) => some (i + 1, a)
    | none =>
      match x with
      | some a => some (0, a)
      | none => none

/-- JavaScript `list[i]` for a possibly negative index. -/
def jsGet (l : List Icon) (i : Int) : Option Icon :=
  if i < 0 then none else l.get? i.toNat

/-- JavaScript `Array.prototype.indexOf`: first index of `a`, else `-1`. -/
def jsIndexOf : List Icon → Icon → Int
  | [], _ => -1
  | h :: t, a =>
    if h = a then 0
    else
      match jsIndexOf t a with
      | r => if r < 0 then -1 else r + 1

/-- Method `emitIconChange(from, to)`: emits only while the emitter is alive. -/
def emitIconChange (st : St) (f t : Option Icon) : List Ev :=
  if st.emitter then [Ev.iconChange f t] else []

/-- Method `serialise()`: unless the store is frozen, write the tuple for the
current icon under the resource's path, or delete the entry when there
is no current icon.  Reading `this.resource.path` throws on a destroyed
delegate; `iconList.indexOf` throws when the table has not loaded. -/
def serialiseOp (env : Env) (st : St) : Except Unit (List Ev) :=
  if env.frozen then .ok []
  else
    match st.resource with
    | none => .error ()
    | some r =>
      match st.currentIcon with
      | some icon =>
        match (if r.isDirectory then env.directoryIcons else env.fileIcons) with
        | none => .error ()
        | some tbl =>
          .ok [Ev.cacheWrite r.path
            ⟨st.currentPriority, jsIndexOf tbl icon,
             env.iconClass icon, env.iconColour icon⟩]
      | none => .ok [Ev.cacheDelete r.path]

/-- Priority handling shared by both `setCurrentIcon` branches: update
`currentPriority` only when an explicit (non-null) priority was passed. -/
def prUpdate (st : St) (pr : Option Int) : Int :=
  match pr with
  | some p => p
  | none => st.currentPriority

/-- The field updates of `setCurrentIcon` for a non-null `to`:
`this.currentIcon = to`, and `this.currentPriority = priority` only when
an explicit priority was supplied. -/
def promoteSt (st : St) (tIc : Icon) (pr : Option Int) : St :=
  { st with currentIcon := some tIc, currentPriority := prUpdate st pr }

/-- The field updates of `setCurrentIcon` for a null `to`. -/
def clearSt (st : St) (pr : Option Int) : St :=
  { st with currentIcon := none, currentPriority := prUpdate st pr }

/-- Method `setCurrentIcon(to, priority)` for a non-null `to`.  On this branch
the self-heal test `null === to` is false, so the body is: no-op on
reference equality, otherwise update the fields, `serialise`, and emit
`{from, to}`. -/
def setCurrentIconSome (env : Env) (st : St) (tIc : Icon) (pr : Option Int) :
    Except Unit (St × List Ev) :=
  if st.currentIcon = some tIc then .ok (st, [])
  else
    match serialiseOp env (promoteSt st tIc pr) with
    | .error e => .error e
    | .ok sevs =>
      .ok (promoteSt st tIc pr,
           sevs ++ emitIconChange (promoteSt st tIc pr) st.currentIcon (some tIc))

/-- Method `getCurrentIcon()`: return the cached icon if set; otherwise, when
candidates exist, promote the highest-priority slot; otherwise issue a
strategy query and return `this.currentIcon || null`.  The scan only
ever promotes a non-null icon, so it uses `setCurrentIconSome`. -/
def getCurrentIconOp (env : Env) (st : St) :
    Except Unit (Option Icon × St × List Ev) :=
  match st.currentIcon with
  | some i => .ok (some i, st, [])
  | none =>
    if st.numIcons > 0 then
      match st.icons with
      | none => .error ()
      | some arr =>
        match findTop arr with
        | some (i, icon) =>
          match setCurrentIconSome env st icon (some (i : Int)) with
          | .error e => .error e
          | .ok (st1, evs) => .ok (some icon, st1, evs)
        | none => .ok (none, st, [Ev.query st.resource])
    else .ok (none, st, [Ev.query st.resource])

/-- Method `setCurrentIcon(to, priority = null)` in full.  When `to` is null and
the resource is not a directory, the re-resolution `to = this.getCurrentIcon()`
runs between the field updates and the final `serialise`/emit pair. -/
def setCurrentIconOp (env : Env) (st : St) (tIc : Option Icon) (pr : Option Int) :
    Except Unit (St × List Ev) :=
  match tIc with
  | some icon => setCurrentIconSome env st icon pr
  | none =>
    match st.currentIcon with
    | none => .ok (st, [])
    | some f =>
      match (clearSt st pr).resource with
      | none => .error ()
      | some r =>
        if r.isDirectory then
          match serialiseOp env (clearSt st pr) with
          | .error e => .error e
          | .ok sevs =>
            .ok (clearSt st pr,
                 sevs ++ emitIconChange (clearSt st pr) (some f) none)
        else
          match getCurrentIconOp env (clearSt st pr) with
          | .error e => .error e
          | .ok (healed, st2, evs1) =>
            match serialiseOp env st2 with
            | .error e => .error e
            | .ok sevs => .ok (st2, evs1 ++ sevs ++ emitIconChange st2 (some f) healed)

/-- The first two statements of `add(icon, priority)`: increment
`numIcons` when the slot was empty (`null == this.icons[priority]`), then
store the icon at the slot. -/
def storeSt (st : St) (arr : List (Option Icon)) (icon : Icon) (priority : Nat) : St :=
  { st with
    icons := some (setSlot arr priority (some icon))
    numIcons := st.numIcons + (if slotAt arr priority = none then 1 else 0) }

/-- Method `add(icon, priority)`: count the slot if it was empty, store the icon,
and promote it when `priority >= this.currentPriority`. -/
def addOp (env : Env) (st : St) (icon : Icon) (priority : Nat) :
    Except Unit (St × List Ev) :=
  match st.icons with
  | none => .error ()
  | some arr =>
    if (priority : Int) ≥ st.currentPriority then
      setCurrentIconSome env (storeSt st arr icon priority) icon (some (priority : Int))
    else .ok (storeSt st arr icon priority, [])

/-- The removal body of `remove`: null the slot and decrement the count. -/
def clearedSt (st : St) (arr : List (Option Icon)) (priority : Nat) : St :=
  { st with
    icons := some (arr.set priority none)
    numIcons := st.numIcons - 1 }

/-- Method `remove(icon, priority)`: guarded by `if(priority && this.icons[priority] === icon)`
— a zero priority is falsy, so the body is skipped without reading `icons`.
A matching removal nulls the slot, decrements the count, and re-resolves
when the removed slot was the current one. -/
def removeOp (env : Env) (st : St) (icon : Icon) (priority : Nat) :
    Except Unit (St × List Ev) :=
  if priority = 0 then .ok (st, [])
  else
    match st.icons with
    | none => .error ()
    | some arr =>
      if slotAt arr priority = some icon then
        if (clearedSt st arr priority).currentPriority = (priority : Int) then
          setCurrentIconOp env (clearedSt st arr priority) none (some (-1))
        else .ok (clearedSt st arr priority, [])
      else .ok (st, [])

/-- Method `destroy()`: guarded by the `destroyed` flag; the first call emits the
destroy event, disposes the emitter and the disposables, and nulls
`resource` and `icons`.  `this.emitter.emit` would throw if the emitter
were already gone on a live delegate. -/
def destroyOp (st : St) : Except Unit (St × List Ev) :=
  if st.destroyed then .ok (st, [])
  else if st.emitter then
    .ok ({ st with
            destroyed := true
            emitter := false
            disposables := false
            resource := none
            icons := none }, [Ev.destroy])
  else .error ()

/-- Method `deserialise()`: reads `this.resource` (throws when destroyed), bails
out when the cache has no entry for the path, reschedules itself when the
icon table has not loaded, and otherwise validates the cached tuple:
accept it through `add` when the indexed icon exists with the exact class
name, else delete the stale entry; in either case schedule the deferred
strategy query. -/
def deserialiseOp (env : Env) (st : St) : Except Unit (St × List Ev) :=
  match st.resource with
  | none => .error ()
  | some r =>
    match env.cache r.path with
    | none => .ok (st, [])
    | some entry =>
      match (if r.isDirectory then env.directoryIcons else env.fileIcons) with
      | none => .ok (st, [Ev.scheduleRetry])
      | some iconList =>
        if entry.priority < 0 then .error ()
        else
          match jsGet iconList entry.iconIndex with
          | some icon =>
            if env.iconClass icon = entry.iconClass then
              match addOp env st icon entry.priority.toNat with
              | .error e => .error e
              | .ok (st1, evs) => .ok (st1, evs ++ [Ev.scheduleQuery])
            else .ok (st, [Ev.cacheDelete r.path, Ev.scheduleQuery])
          | none => .ok (st, [Ev.cacheDelete r.path, Ev.scheduleQuery])

/-- The two `setImmediate` continuations scheduled by `deserialise`. -/
inductive Deferred where
  | retry : Deferred
  | deferredQuery : Deferred
deriving DecidableEq, Repr

/-- Executing a scheduled continuation against the state current at that
later turn: the retry re-enters `deserialise`, and the deferred query
reads `this.resource` at execution time and queries with it.  Neither
closure consults the `destroyed` flag. -/
def runTask (env : Env) (st : St) : Deferred → Except Unit (St × List Ev)
  | .retry => deserialiseOp env st
  | .deferredQuery => .ok (st, [Ev.query st.resource])

/-- Predicate for counting `did-change-icon` emissions in an event log. -/
def isIconChange : Ev → Bool
  | .iconChange _ _ => true
  | _ => false

/-- Number of `did-change-icon` events in a log. -/
def countIconChange (l : List Ev) : Nat :=
  (l.filter isIconChange).length

/-!
## The Delegation Link (`set master`, lines 238-287)

The first assignment to `master` runs the class-level setter: after the
guard `if(null == input || input.master === this) return;` it captures
`originalIcon` and the closure variable `currentIcon` (never reassigned
afterwards), redefines `currentIcon` as a getter-only accessor proxying
to `masterDelegate.getCurrentIcon()`, installs a stateful own `master`
accessor, and finally runs that new setter with the input.

The model specialises the mechanism to a system of two delegates: the
slave (whose accessors get redefined) and a single master candidate `M`.
`masterRef` plays both the closure `masterDelegate` and the relay
`disposable` — the inner setter always updates the two together.
The event log merges the emissions of both delegates in order; the relay
subscription re-broadcasts each of the master's `did-change-icon` events
through the slave's emitter immediately after the original.
-/

/-- Two-delegate system: the slave's own fields, the delegation closure
state, the master's fields, and the external fact `M.master === S`
consulted by the class setter's guard. -/
structure Sys where
  slave : St
  delegated : Bool
  masterRef : Bool
  masterSt : St
  mMasterIsSlave : Bool
  origIcon : Option Icon
deriving DecidableEq, Repr

/-- The relay handler `to.onDidChangeIcon(...)`: each `did-change-icon`
event of the master is immediately re-emitted through the slave's own
emitter with the original `{from, to}` payload. -/
def relayEvents (slaveEmitter : Bool) : List Ev → List Ev
  | [] => []
  | Ev.iconChange f t :: rest =>
    Ev.iconChange f t ::
      ((if slaveEmitter then [Ev.iconChange f t] else []) ++ relayEvents slaveEmitter rest)
  | e :: rest => e :: relayEvents slaveEmitter rest

/-- The redefined `currentIcon` getter of a delegated slave:
`masterDelegate ? masterDelegate.getCurrentIcon() : null`.  Evaluating
it runs the master's resolver (with the master's own effects, relayed
while the subscription is active). -/
def slaveCurrentIconGet (env : Env) (sys : Sys) :
    Except Unit (Option Icon × Sys × List Ev) :=
  if sys.masterRef then
    match getCurrentIconOp env sys.masterSt with
    | .error e => .error e
    | .ok (mi, m1, mevs) =>
      .ok (mi, { sys with masterSt := m1 }, relayEvents sys.slave.emitter mevs)
  else .ok (none, sys, [])

/-- The redefined own `master` setter (lines 256-282): no-op when the new
target equals the old one; otherwise swap `masterDelegate`, dispose the
old relay and subscribe the new one, emit `did-change-master`, then
evaluate `this.currentIcon` and emit a `did-change-icon` whose `from` is
the closure variable `currentIcon` — the pre-delegation icon, which the
source never updates. -/
def innerSetMaster (env : Env) (sys : Sys) (tM : Bool) :
    Except Unit (Sys × List Ev) :=
  if tM = sys.masterRef then .ok (sys, [])
  else
    let sys1 : Sys := { sys with masterRef := tM }
    let evs1 := if sys1.slave.emitter then [Ev.masterChange sys.masterRef tM] else []
    match slaveCurrentIconGet env sys1 with
    | .error e => .error e
    | .ok (ci, sys2, gevs) =>
      .ok (sys2, evs1 ++ gevs ++ emitIconChange sys2.slave sys.origIcon ci)

/-- Assigning `this.master = input` from the outside.  A never-delegated
slave runs the class setter: the guard silently ignores a null/undefined
input and an input whose own `master` is this delegate; otherwise the
accessors are redefined and the inner setter runs.  A delegated slave
dispatches straight to its own (guard-free) inner setter. -/
def setMasterSys (env : Env) (sys : Sys) (input : Bool) :
    Except Unit (Sys × List Ev) :=
  if sys.delegated then innerSetMaster env sys input
  else if input = false then .ok (sys, [])
  else if sys.mMasterIsSlave then .ok (sys, [])
  else
    let sys1 : Sys :=
      { sys with
        delegated := true
        masterRef := false
        origIcon := sys.slave.currentIcon }
    innerSetMaster env sys1 true

/-- Method `getCurrentIcon()` invoked on the slave.  While not delegated this is
the plain resolver on the slave's own fields.  Once delegated,
`this.currentIcon` is the proxy getter; when it yields an icon that icon
is returned, and otherwise the method falls into the scan of the slave's
own `icons` — whose promotion executes `this.currentIcon = to`, an
assignment to a getter-only accessor, which throws a `TypeError` in
strict mode.  With no scannable candidate the method issues the strategy
query and returns `this.currentIcon || null` (the getter re-evaluated). -/
def getCurrentIconSys (env : Env) (sys : Sys) :
    Except Unit (Option Icon × Sys × List Ev) :=
  if sys.delegated = false then
    match getCurrentIconOp env sys.slave with
    | .error e => .error e
    | .ok (i, s1, evs) => .ok (i, { sys with slave := s1 }, evs)
  else
    match slaveCurrentIconGet env sys with
    | .error e => .error e
    | .ok (some i, sys1, evs) => .ok (some i, sys1, evs)
    | .ok (none, sys1, evs) =>
      if sys1.slave.numIcons > 0 then
        match sys1.slave.icons with
        | none => .error ()
        | some arr =>
          match findTop arr with
          | some _ => .error ()
          | none =>
            match slaveCurrentIconGet env sys1 with
            | .error e => .error e
            | .ok (ci, sys2, gevs) =>
              .ok (ci, sys2, evs ++ [Ev.query sys1.slave.resource] ++ gevs)
      else
        match slaveCurrentIconGet env sys1 with
        | .error e => .error e
        | .ok (ci, sys2, gevs) =>
          .ok (ci, sys2, evs ++ [Ev.query sys1.slave.resource] ++ gevs)

/-- Destroying the master delegate.  Its `destroy()` runs first; if it
emitted `did-destroy` and the slave's relay subscription is active, the
handler `_=> this.master = null` fires the slave's inner setter. -/
def destroyMasterSys (env : Env) (sys : Sys) : Except Unit (Sys × List Ev) :=
  match destroyOp sys.masterSt with
  | .error e => .error e
  | .ok (m1, mevs) =>
    let sys1 : Sys := { sys with masterSt := m1 }
    if sys.masterRef && !sys.masterSt.destroyed then
      match innerSetMaster env sys1 false with
      | .error e => .error e
      | .ok (sys2, sevs) => .ok (sys2, mevs ++ sevs)
    else .ok (sys1, mevs)

/-!
## Helper lemmas about the sparse-array model
-/

theorem countSome_append_replicate (l : List (Option Icon)) (k : Nat) :
    countSome (l ++ List.replicate k none) = countSome l := by
  induction l with
  | nil =>
    simp only [List.nil_append]
    induction k with
    | zero => rfl
    | succ n ih => simpa [List.replicate, countSome] using ih
  | cons x t ih =>
    cases x <;> simp [countSome, ih]

theorem countSome_set_some (l : List (Option Icon)) (p : Nat) (a : Icon)
    (hp : p < l.length) :
    countSome (l.set p (some a)) =
      countSome l + (if l.getD p none = none then 1 else 0) := by
  induction l generalizing p with
  | nil => simp at hp
  | cons x t ih =>
    cases p with
    | zero => cases x <;> simp [countSome, List.set, List.getD]
    | succ q =>
      have hq : q < t.length := by simpa using hp
      cases x <;> simp [countSome, List.set, List.getD, ih q hq] <;> omega

theorem getD_some_lt (l : List (Option Icon)) (p : Nat) (a : Icon)
    (h : l.getD p none = some a) : p < l.length := by
  by_contra hc
  push_neg at hc
  rw [List.getD_eq_default] at h
  · exact Option.noConfusion h
  · exact hc

theorem countSome_set_none (l : List (Option Icon)) (p : Nat) (a : Icon)
    (h : l.getD p none = some a) :
    countSome l = countSome (l.set p none) + 1 := by
  induction l generalizing p with
  | nil => simp [List.getD] at h
  | cons x t ih =>
    cases p with
    | zero =>
      simp only [List.getD, List.getElem?_cons_zero, Option.getD_some] at h
      subst h
      simp [countSome, List.set]
    | succ q =>
      have ht : t.getD q none = some a := by simpa [List.getD] using h
      cases x <;> simp [countSome, List.set, ih q ht]

theorem getD_append_replicate (l : List (Option Icon)) (p : Nat) :
    (l ++ List.replicate (p + 1 - l.length) none).getD p none = l.getD p none := by
  by_cases hp : p < l.length
  · rw [List.getD_eq_getElem?_getD, List.getD_eq_getElem?_getD,
        List.getElem?_append_left hp]
  · push_neg at hp
    rw [List.getD_eq_default l _ hp]
    rw [List.getD_eq_getElem?_getD, List.getElem?_append_right hp]
    simp only [List.getElem?_replicate]
    split <;> rfl

theorem length_pad_gt (l : List (Option Icon)) (p : Nat) :
    p < (l ++ List.replicate (p + 1 - l.length) none).length := by
  simp only [List.length_append, List.length_replicate]
  omega

theorem countSome_setSlot (l : List (Option Icon)) (p : Nat) (a : Icon) :
    countSome (setSlot l p (some a)) =
      countSome l + (if l.getD p none = none then 1 else 0) := by
  unfold setSlot
  rw [countSome_set_some _ _ _ (length_pad_gt l p),
      countSome_append_replicate, getD_append_replicate]

/-!
## Frame lemmas: which fields each operation can touch
-/

theorem setCurrentIconSome_frame {env : Env} {st : St} {tIc : Icon}
    {pr : Option Int} {st1 : St} {evs : List Ev}
    (h : setCurrentIconSome env st tIc pr = .ok (st1, evs)) :
    st1.icons = st.icons ∧ st1.numIcons = st.numIcons ∧
    st1.destroyed = st.destroyed ∧ st1.resource = st.resource ∧
    st1.emitter = st.emitter := by
  unfold setCurrentIconSome at h
  split at h
  · cases h
    exact ⟨rfl, rfl, rfl, rfl, rfl⟩
  · split at h
    · cases h
    · cases h
      exact ⟨rfl, rfl, rfl, rfl, rfl⟩

theorem getCurrentIconOp_frame {env : Env} {st : St} {res : Option Icon}
    {st1 : St} {evs : List Ev}
    (h : getCurrentIconOp env st = .ok (res, st1, evs)) :
    st1.icons = st.icons ∧ st1.numIcons = st.numIcons ∧
    st1.destroyed = st.destroyed ∧ st1.resource = st.resource ∧
    st1.emitter = st.emitter := by
  unfold getCurrentIconOp at h
  split at h
  · cases h
    exact ⟨rfl, rfl, rfl, rfl, rfl⟩
  · split at h
    · split at h
      · cases h
      · split at h
        · split at h
          · cases h
          · rename_i hs
            cases h
            exact setCurrentIconSome_frame hs
        · cases h
          exact ⟨rfl, rfl, rfl, rfl, rfl⟩
    · cases h
      exact ⟨rfl, rfl, rfl, rfl, rfl⟩

theorem setCurrentIconOp_frame {env : Env} {st : St} {tIc : Option Icon}
    {pr : Option Int} {st1 : St} {evs : List Ev}
    (h : setCurrentIconOp env st tIc pr = .ok (st1, evs)) :
    st1.icons = st.icons ∧ st1.numIcons = st.numIcons ∧
    st1.destroyed = st.destroyed ∧ st1.resource = st.resource ∧
    st1.emitter = st.emitter := by
  unfold setCurrentIconOp at h
  split at h
  · exact setCurrentIconSome_frame h
  · split at h
    · cases h
      exact ⟨rfl, rfl, rfl, rfl, rfl⟩
    · split at h
      · cases h
      · split at h
        · split at h
          · cases h
          · cases h
            exact ⟨rfl, rfl, rfl, rfl, rfl⟩
        · split at h
          · cases h
          · rename_i hg
            split at h
            · cases h
            · cases h
              have hf := getCurrentIconOp_frame hg
              exact hf

/-!
## The `numIcons` invariant (claim C4)
-/

/-- Field `numIcons` agrees with the number of non-empty `icons` slots. -/
def IconsInv (st : St) : Prop :=
  (∀ arr, st.icons = some arr → st.numIcons = (countSome arr : Int)) ∧
  (st.destroyed = false → st.icons.isSome = true)

theorem initSt_inv (r : Resource) : IconsInv (initSt r) := by
  constructor
  · intro arr h
    cases h
    rfl
  · intro _
    rfl

theorem addOp_inv {env : Env} {st : St} {icon : Icon} {p : Nat}
    {st1 : St} {evs : List Ev}
    (h : addOp env st icon p = .ok (st1, evs)) (hI : IconsInv st) :
    IconsInv st1 ∧ st1.destroyed = st.destroyed := by
  unfold addOp at h
  split at h
  · cases h
  · rename_i arr harr
    have hnum : st.numIcons = (countSome arr : Int) := hI.1 arr harr
    have hcount : (countSome (setSlot arr p (some icon)) : Int) =
        (countSome arr : Int) + (if slotAt arr p = none then 1 else 0) := by
      rw [countSome_setSlot]
      unfold slotAt
      split <;> push_cast <;> omega
    have hstore : IconsInv (storeSt st arr icon p) ∧
        (storeSt st arr icon p).destroyed = st.destroyed := by
      refine ⟨⟨?_, ?_⟩, rfl⟩
      · intro arr2 h2
        have : arr2 = setSlot arr p (some icon) := by
          simpa [storeSt] using h2.symm
        subst this
        simp only [storeSt]
        omega
      · intro _
        rfl
    split at h
    · have hf := setCurrentIconSome_frame h
      refine ⟨⟨?_, ?_⟩, ?_⟩
      · intro arr2 h2
        rw [hf.1] at h2
        rw [hf.2.1]
        exact hstore.1.1 arr2 h2
      · intro hd
        rw [hf.2.2.1] at hd
        rw [hf.1]
        exact hstore.1.2 hd
      · rw [hf.2.2.1]
        exact hstore.2
    · cases h
      exact hstore

theorem removeOp_inv {env : Env} {st : St} {icon : Icon} {p : Nat}
    {st1 : St} {evs : List Ev}
    (h : removeOp env st icon p = .ok (st1, evs)) (hI : IconsInv st) :
    IconsInv st1 ∧ st1.destroyed = st.destroyed := by
  unfold removeOp at h
  split at h
  · cases h
    exact ⟨hI, rfl⟩
  · split at h
    · cases h
    · rename_i arr harr
      split at h
      · rename_i hslot
        have hnum : st.numIcons = (countSome arr : Int) := hI.1 arr harr
        have hcount : countSome arr = countSome (arr.set p none) + 1 :=
          countSome_set_none arr p icon hslot
        have hcleared : IconsInv (clearedSt st arr p) ∧
            (clearedSt st arr p).destroyed = st.destroyed := by
          refine ⟨⟨?_, ?_⟩, rfl⟩
          · intro arr2 h2
            have : arr2 = arr.set p none := by
              simpa [clearedSt] using h2.symm
            subst this
            simp only [clearedSt]
            omega
          · intro _
            rfl
        split at h
        · have hf := setCurrentIconOp_frame h
          refine ⟨⟨?_, ?_⟩, ?_⟩
          · intro arr2 h2
            rw [hf.1] at h2
            rw [hf.2.1]
            exact hcleared.1.1 arr2 h2
          · intro hd
            rw [hf.2.2.1] at hd
            rw [hf.1]
            exact hcleared.1.2 hd
          · rw [hf.2.2.1]
            exact hcleared.2
        · cases h
          exact hcleared
      · cases h
        exact ⟨hI, rfl⟩

theorem deserialiseOp_inv {env : Env} {st : St} {st1 : St} {evs : List Ev}
    (h : deserialiseOp env st = .ok (st1, evs)) (hI : IconsInv st) :
    IconsInv st1 ∧ st1.destroyed = st.destroyed := by
  unfold deserialiseOp at h
  split at h
  · cases h
  · split at h
    · cases h
      exact ⟨hI, rfl⟩
    · split at h
      · cases h
        exact ⟨hI, rfl⟩
      · split at h
        · cases h
        · split at h
          · split at h
            · split at h
              · cases h
              · rename_i hadd
                cases h
                exact addOp_inv hadd hI
            · cases h
              exact ⟨hI, rfl⟩
          · cases h
            exact ⟨hI, rfl⟩

theorem destroyOp_inv {st : St} {st1 : St} {evs : List Ev}
    (h : destroyOp st = .ok (st1, evs)) (hI : IconsInv st) :
    IconsInv st1 := by
  unfold destroyOp at h
  split at h
  · cases h
    exact hI
  · split at h
    · cases h
      constructor
      · intro arr h2
        cases h2
      · intro hd
        cases hd
    · cases h

theorem setCurrentIconOp_inv {env : Env} {st : St} {tIc : Option Icon}
    {pr : Option Int} {st1 : St} {evs : List Ev}
    (h : setCurrentIconOp env st tIc pr = .ok (st1, evs)) (hI : IconsInv st) :
    IconsInv st1 ∧ st1.destroyed = st.destroyed := by
  have hf := setCurrentIconOp_frame h
  refine ⟨⟨?_, ?_⟩, hf.2.2.1⟩
  · intro arr h2
    rw [hf.1] at h2
    rw [hf.2.1]
    exact hI.1 arr h2
  · intro hd
    rw [hf.2.2.1] at hd
    rw [hf.1]
    exact hI.2 hd

theorem getCurrentIconOp_inv {env : Env} {st : St} {res : Option Icon}
    {st1 : St} {evs : List Ev}
    (h : getCurrentIconOp env st = .ok (res, st1, evs)) (hI : IconsInv st) :
    IconsInv st1 ∧ st1.destroyed = st.destroyed := by
  have hf := getCurrentIconOp_frame h
  refine ⟨⟨?_, ?_⟩, hf.2.2.1⟩
  · intro arr h2
    rw [hf.1] at h2
    rw [hf.2.1]
    exact hI.1 arr h2
  · intro hd
    rw [hf.2.2.1] at hd
    rw [hf.1]
    exact hI.2 hd

/-- States a delegate can reach through its public surface: construction
(`new IconDelegate(resource)` runs the constructor and `deserialise`),
the provider calls `add`/`remove`, resolution, teardown, a later
re-entrant `deserialise`, and the execution of scheduled continuations. -/
inductive ReachableDelegate (env : Env) : St → Prop where
  | construct (r : Resource) (st : St) (evs : List Ev) :
      deserialiseOp env (initSt r) = .ok (st, evs) → ReachableDelegate env st
  | add {st st1 : St} {icon : Icon} {p : Nat} {evs : List Ev} :
      ReachableDelegate env st → addOp env st icon p = .ok (st1, evs) →
      ReachableDelegate env st1
  | remove {st st1 : St} {icon : Icon} {p : Nat} {evs : List Ev} :
      ReachableDelegate env st → removeOp env st icon p = .ok (st1, evs) →
      ReachableDelegate env st1
  | setCur {st st1 : St} {tIc : Option Icon} {pr : Option Int} {evs : List Ev} :
      ReachableDelegate env st → setCurrentIconOp env st tIc pr = .ok (st1, evs) →
      ReachableDelegate env st1
  | getCur {st st1 : St} {res : Option Icon} {evs : List Ev} :
      ReachableDelegate env st → getCurrentIconOp env st = .ok (res, st1, evs) →
      ReachableDelegate env st1
  | deser {st st1 : St} {evs : List Ev} :
      ReachableDelegate env st → deserialiseOp env st = .ok (st1, evs) →
      ReachableDelegate env st1
  | destroy {st st1 : St} {evs : List Ev} :
      ReachableDelegate env st → destroyOp st = .ok (st1, evs) →
      ReachableDelegate env st1
  | task {st st1 : St} {d : Deferred} {evs : List Ev} :
      ReachableDelegate env st → runTask env st d = .ok (st1, evs) →
      ReachableDelegate env st1

theorem reachable_inv {env : Env} {st : St}
    (h : ReachableDelegate env st) : IconsInv st := by
  induction h with
  | construct r st evs hd => exact (deserialiseOp_inv hd (initSt_inv r)).1
  | add _ hop ih => exact (addOp_inv hop ih).1
  | remove _ hop ih => exact (removeOp_inv hop ih).1
  | setCur _ hop ih => exact (setCurrentIconOp_inv hop ih).1
  | getCur _ hop ih => exact (getCurrentIconOp_inv hop ih).1
  | deser _ hop ih => exact (deserialiseOp_inv hop ih).1
  | destroy _ hop ih => exact destroyOp_inv hop ih
  | task _ hop ih =>
    cases ‹Deferred› with
    | retry => exact (deserialiseOp_inv hop ih).1
    | deferredQuery =>
      cases hop
      exact ih

/-!
## Totality and shape helpers
-/

theorem serialiseOp_ok {env : Env} {r : Resource} (st : St)
    (hres : st.resource = some r)
    (htbl : (if r.isDirectory then env.directoryIcons else env.fileIcons).isSome = true) :
    ∃ evs, serialiseOp env st = .ok evs ∧ countIconChange evs = 0 := by
  by_cases hf : env.frozen
  · refine ⟨[], ?_, rfl⟩
    simp only [serialiseOp, if_pos hf]
  · cases hcur : st.currentIcon with
    | none =>
      refine ⟨[Ev.cacheDelete r.path], ?_, rfl⟩
      simp only [serialiseOp, if_neg hf, hres, hcur]
    | some icon =>
      rcases Option.isSome_iff_exists.mp htbl with ⟨tbl, htbl2⟩
      refine ⟨[Ev.cacheWrite r.path
        ⟨st.currentPriority, jsIndexOf tbl icon,
         env.iconClass icon, env.iconColour icon⟩], ?_, rfl⟩
      simp only [serialiseOp, if_neg hf, hres, hcur, htbl2]

theorem addOp_spec (env : Env) (st : St) (icon : Icon) (p : Nat)
    (r : Resource) (arr : List (Option Icon))
    (hres : st.resource = some r) (harr : st.icons = some arr)
    (htbl : (if r.isDirectory then env.directoryIcons else env.fileIcons).isSome = true) :
    ∃ st1 evs,
      addOp env st icon p = .ok (st1, evs) ∧
      st1.icons = some (setSlot arr p (some icon)) ∧
      st1.numIcons = st.numIcons + (if slotAt arr p = none then 1 else 0) ∧
      st1.resource = st.resource ∧ st1.emitter = st.emitter ∧
      st1.destroyed = st.destroyed ∧
      ((p : Int) ≥ st.currentPriority →
        st1.currentIcon = some icon ∧
        (st.currentIcon = some icon → st1 = storeSt st arr icon p) ∧
        (st.currentIcon ≠ some icon → st1.currentPriority = (p : Int))) ∧
      ((p : Int) < st.currentPriority →
        st1.currentIcon = st.currentIcon ∧
        st1.currentPriority = st.currentPriority) := by
  simp only [addOp, harr]
  by_cases hp : (p : Int) ≥ st.currentPriority
  · rw [if_pos hp]
    unfold setCurrentIconSome
    by_cases hc : st.currentIcon = some icon
    · have hc2 : (storeSt st arr icon p).currentIcon = some icon := hc
      rw [if_pos hc2]
      refine ⟨storeSt st arr icon p, [], rfl, rfl, rfl, rfl, rfl, rfl, ?_, ?_⟩
      · intro _
        exact ⟨hc2, fun _ => rfl, fun hcn => absurd hc hcn⟩
      · intro hlt
        exact absurd hp (not_le.mpr hlt)
    · have hc2 : ¬ (storeSt st arr icon p).currentIcon = some icon := hc
      rw [if_neg hc2]
      have hres2 : (promoteSt (storeSt st arr icon p) icon (some (p : Int))).resource
          = some r := hres
      rcases serialiseOp_ok _ hres2 htbl with ⟨sevs, hs, _⟩
      rw [hs]
      refine ⟨_, _, rfl, rfl, rfl, rfl, rfl, rfl, ?_, ?_⟩
      · intro _
        exact ⟨rfl, fun hcc => absurd hcc hc, fun _ => rfl⟩
      · intro hlt
        exact absurd hp (not_le.mpr hlt)
  · rw [if_neg hp]
    refine ⟨storeSt st arr icon p, [], rfl, rfl, rfl, rfl, rfl, rfl, ?_, ?_⟩
    · intro hge
      exact absurd hge hp
    · intro _
      exact ⟨rfl, rfl⟩

/-!
## Projection lemmas for the named field updates
-/

theorem clearSt_resource (st : St) (pr : Option Int) :
    (clearSt st pr).resource = st.resource := rfl

theorem clearSt_currentIcon (st : St) (pr : Option Int) :
    (clearSt st pr).currentIcon = none := rfl

theorem clearSt_emitter (st : St) (pr : Option Int) :
    (clearSt st pr).emitter = st.emitter := rfl

theorem clearSt_numIcons (st : St) (pr : Option Int) :
    (clearSt st pr).numIcons = st.numIcons := rfl

theorem clearSt_icons (st : St) (pr : Option Int) :
    (clearSt st pr).icons = st.icons := rfl

theorem promoteSt_resource (st : St) (tIc : Icon) (pr : Option Int) :
    (promoteSt st tIc pr).resource = st.resource := rfl

theorem promoteSt_currentIcon (st : St) (tIc : Icon) (pr : Option Int) :
    (promoteSt st tIc pr).currentIcon = some tIc := rfl

theorem promoteSt_emitter (st : St) (tIc : Icon) (pr : Option Int) :
    (promoteSt st tIc pr).emitter = st.emitter := rfl

/-!
## Shared concrete fixtures used by the claim-level theorems
-/

/-- A plain file resource. -/
def resFile : Resource := ⟨"/a/b.txt", false, false, false⟩

/-- A directory resource. -/
def resDir : Resource := ⟨"/a/d", true, false, false⟩

/-- A live environment: tables loaded (file icons `7`, `8`; directory icon
`9`), store not frozen, cache empty. -/
def envNoCache : Env :=
  { frozen := false
    fileIcons := some [7, 8]
    directoryIcons := some [9]
    iconClass := fun i => "icon-" ++ toString i
    iconColour := fun _ => []
    cache := fun _ => none }

/-- The state `destroy()` leaves behind on a live delegate. -/
def destroyedSt (st : St) : St :=
  { st with
    destroyed := true
    emitter := false
    disposables := false
    resource := none
    icons := none }

/-- Claim C8: `destroy()` is idempotent — the first call emits exactly one
destroy event, disposes the subscriptions, clears the emitter, the
Priority Store (`icons`) and the resource reference, and sets
`destroyed = true`; any later call is a no-op returning no event and no
error. -/
theorem c8_destroy_idempotent (st : St)
    (h1 : st.destroyed = false) (h2 : st.emitter = true) :
    destroyOp st = .ok (destroyedSt st, [Ev.destroy]) ∧
    (destroyedSt st).destroyed = true ∧
    (destroyedSt st).emitter = false ∧
    (destroyedSt st).disposables = false ∧
    (destroyedSt st).icons = none ∧
    (destroyedSt st).resource = none ∧
    destroyOp (destroyedSt st) = .ok (destroyedSt st, []) := by
  refine ⟨?_, rfl, rfl, rfl, rfl, rfl, rfl⟩
  unfold destroyOp
  rw [h1, h2]
  rfl

/-- Witness for C8 at a concrete live delegate. -/
theorem c8_destroy_idempotent_witness :
    (initSt resFile).destroyed = false ∧
    destroyOp (initSt resFile) = .ok (destroyedSt (initSt resFile), [Ev.destroy]) ∧
    destroyOp (destroyedSt (initSt resFile)) = .ok (destroyedSt (initSt resFile), []) := by
  have h := c8_destroy_idempotent (initSt resFile) rfl rfl
  exact ⟨rfl, h.1, h.2.2.2.2.2.2⟩

/-- Claim C10: on a never-delegated delegate the class-level `master`
setter silently ignores a null/undefined input and an input whose own
`master` is this delegate (a two-element delegation cycle): the state is
returned unchanged and no event is emitted. -/
theorem c10_initial_master_guard (env : Env) (sys : Sys)
    (h : sys.delegated = false) :
    setMasterSys env sys false = .ok (sys, []) ∧
    (sys.mMasterIsSlave = true → setMasterSys env sys true = .ok (sys, [])) := by
  constructor
  · unfold setMasterSys
    rw [h]
    rfl
  · intro hm
    unfold setMasterSys
    rw [h, hm]
    rfl

/-- A never-delegated two-delegate system whose master candidate already
has this delegate as its own master. -/
def c10sys : Sys :=
  { slave := initSt resFile
    delegated := false
    masterRef := false
    masterSt := initSt resDir
    mMasterIsSlave := true
    origIcon := none }

/-- Witness for C10 at a concrete system. -/
theorem c10_initial_master_guard_witness :
    setMasterSys envNoCache c10sys false = .ok (c10sys, []) ∧
    setMasterSys envNoCache c10sys true = .ok (c10sys, []) := by
  have h := c10_initial_master_guard envNoCache c10sys rfl
  exact ⟨h.1, h.2 rfl⟩

/-- The resource of the delegate used for the C7 scenario. -/
def c7res : Resource := ⟨"/a/c.txt", false, false, false⟩

/-- Environment for C7: the cache holds a tuple for every path but the
icon tables have not loaded yet, so construction schedules the
deserialisation retry. -/
def c7env : Env :=
  { frozen := false
    fileIcons := none
    directoryIcons := none
    iconClass := fun i => "icon-" ++ toString i
    iconColour := fun _ => []
    cache := fun _ => some ⟨3, 0, "icon-7", []⟩ }

/-- Claim C7 (code bug): the deferred operations do NOT check `destroyed`
at execution time.  Constructing the delegate schedules the
deserialisation retry (tables not loaded); `destroy()` then nulls
`resource`; when the retry closure later runs it re-enters `deserialise`,
whose destructuring of `this.resource` throws a TypeError (`.error ()`),
and the deferred query closure still issues `StrategyManager.query` with
the nulled resource instead of doing nothing. -/
theorem c7_deferred_ops_ignore_destroyed :
    deserialiseOp c7env (initSt c7res) = .ok (initSt c7res, [Ev.scheduleRetry]) ∧
    destroyOp (initSt c7res) = .ok (destroyedSt (initSt c7res), [Ev.destroy]) ∧
    runTask c7env (destroyedSt (initSt c7res)) Deferred.retry = .error () ∧
    runTask c7env (destroyedSt (initSt c7res)) Deferred.deferredQuery
      = .ok (destroyedSt (initSt c7res), [Ev.query none]) :=
  ⟨rfl, rfl, rfl, rfl⟩

/-- A delegate holding icon `5` at priority slot `0` (as left by
`add(icon5, 0)`), with that slot current. -/
def c3st : St :=
  { resource := some resFile
    emitter := true
    disposables := true
    icons := some [some 5]
    numIcons := 1
    currentIcon := some 5
    currentPriority := 0
    destroyed := false }

/-- Claim C3 (code bug): priority `0` is NOT a removable slot.  The guard
`if(priority && this.icons[priority] === icon)` treats the priority `0`
as falsy, so `remove(icon, 0)` with the very icon stored at slot `0`
returns with no state change, no event, no decrement and no
re-resolution. -/
theorem c3_priority_zero_unremovable :
    removeOp envNoCache c3st 5 0 = .ok (c3st, []) ∧
    slotAt [some 5] 0 = some 5 ∧
    c3st.numIcons = 1 ∧
    c3st.currentIcon = some 5 :=
  ⟨rfl, rfl, rfl, rfl⟩

/-- Claim C4: in every reachable non-destroyed delegate state, `numIcons`
equals the number of non-empty slots of the `icons` sequence; the
invariant is preserved by construction, `add`, `remove`, `deserialise`,
`setCurrentIcon`, `getCurrentIcon`, `destroy` and the deferred
continuations. -/
theorem c4_numIcons_tracks_slots (env : Env) (st : St)
    (h : ReachableDelegate env st) (hd : st.destroyed = false) :
    ∃ arr, st.icons = some arr ∧ st.numIcons = (countSome arr : Int) := by
  have hI := reachable_inv h
  rcases Option.isSome_iff_exists.mp (hI.2 hd) with ⟨arr, harr⟩
  exact ⟨arr, harr, hI.1 arr harr⟩

/-- Witness for C4 at the freshly constructed delegate. -/
theorem c4_numIcons_tracks_slots_witness :
    (initSt resFile).destroyed = false ∧
    (initSt resFile).icons = some [] ∧
    (initSt resFile).numIcons = (countSome [] : Int) := by
  rcases c4_numIcons_tracks_slots envNoCache (initSt resFile)
      (ReachableDelegate.construct resFile (initSt resFile) [] rfl) rfl with
    ⟨arr, harr, hnum⟩
  have ha : ([] : List (Option Icon)) = arr := Option.some_inj.mp harr
  rw [← ha] at hnum
  exact ⟨rfl, rfl, hnum⟩

/-!
## Claim C1: behaviour of `add`
-/

/-- A delegate whose current icon `7` sits at slot `3`. -/
def c1st : St :=
  { resource := some resFile
    emitter := true
    disposables := true
    icons := some [none, none, none, some 7]
    numIcons := 1
    currentIcon := some 7
    currentPriority := 3
    destroyed := false }

/-- The state after `add(icon7, 5)` on `c1st`. -/
def c1stAfter : St :=
  { c1st with
    icons := some [none, none, none, some 7, none, some 7]
    numIcons := 2 }

/-- Counterexample to claim C1 as stated: `add(icon7, 5)` on a delegate
whose current icon is already `icon7` (at priority 3) satisfies
`priority >= currentPriority`, yet `currentPriority` stays `3` instead of
becoming `5` — `setCurrentIcon` no-ops on reference equality before the
priority update. -/
theorem c1_add_counterexample :
    (5 : Int) ≥ c1st.currentPriority ∧
    addOp envNoCache c1st 7 5 = .ok (c1stAfter, []) ∧
    c1stAfter.currentIcon = some 7 ∧
    c1stAfter.currentPriority = 3 ∧
    ¬ c1stAfter.currentPriority = (5 : Int) :=
  ⟨by decide, rfl, rfl, rfl, by decide⟩

/-- State after `add(icon7, 3)` on a fresh delegate for `/a/b.txt`. -/
def p2stA : St :=
  { resource := some resFile
    emitter := true
    disposables := true
    icons := some [none, none, none, some 7]
    numIcons := 1
    currentIcon := some 7
    currentPriority := 3
    destroyed := false }

/-- Events of that first `add`. -/
def p2evsA : List Ev :=
  [Ev.cacheWrite resFile.path ⟨3, 0, "icon-7", []⟩,
   Ev.iconChange none (some 7)]

/-- State after the subsequent `add(icon8, 1)`. -/
def p2stB : St :=
  { p2stA with
    icons := some [none, some 8, none, some 7]
    numIcons := 2 }

/-- Claim C1 (amended): `add(icon, priority)` stores the icon at the slot
and increments `numIcons` exactly when the slot was empty; when
`priority >= currentPriority` the icon is promoted to `currentIcon`, and
`currentPriority` becomes `priority` unless the icon was already the
current icon (then `setCurrentIcon` is a reference-equality no-op and
`currentPriority` keeps its old value); when `priority < currentPriority`
neither `currentIcon` nor `currentPriority` changes.  In particular
`add(iconA, 3)` then `add(iconB, 1)` leaves `getCurrentIcon() == iconA`,
and on a fresh delegate (`currentPriority = -1`, no current icon) any
single `add` promotes its icon with `currentPriority = priority`. -/
theorem c1_add_amended (env : Env) (st : St) (icon : Icon) (p : Nat)
    (r : Resource) (arr : List (Option Icon))
    (hres : st.resource = some r) (harr : st.icons = some arr)
    (htbl : (if r.isDirectory then env.directoryIcons else env.fileIcons).isSome = true) :
    (∃ st1 evs,
      addOp env st icon p = .ok (st1, evs) ∧
      st1.icons = some (setSlot arr p (some icon)) ∧
      st1.numIcons = st.numIcons + (if slotAt arr p = none then 1 else 0) ∧
      ((p : Int) ≥ st.currentPriority →
        st1.currentIcon = some icon ∧
        (st.currentIcon = some icon → st1 = storeSt st arr icon p) ∧
        (st.currentIcon ≠ some icon → st1.currentPriority = (p : Int))) ∧
      ((p : Int) < st.currentPriority →
        st1.currentIcon = st.currentIcon ∧
        st1.currentPriority = st.currentPriority) ∧
      (st.currentPriority = -1 → st.currentIcon = none →
        st1.currentIcon = some icon ∧ st1.currentPriority = (p : Int))) ∧
    addOp envNoCache (initSt resFile) 7 3 = .ok (p2stA, p2evsA) ∧
    addOp envNoCache p2stA 8 1 = .ok (p2stB, []) ∧
    getCurrentIconOp envNoCache p2stB = .ok (some 7, p2stB, []) := by
  refine ⟨?_, rfl, rfl, rfl⟩
  rcases addOp_spec env st icon p r arr hres harr htbl with
    ⟨st1, evs, hop, hicons, hnum, _, _, _, hge, hlt⟩
  refine ⟨st1, evs, hop, hicons, hnum, hge, hlt, ?_⟩
  intro hm1 hcn
  have hp : (p : Int) ≥ st.currentPriority := by
    rw [hm1]
    omega
  rcases hge hp with ⟨hci, _, hcp⟩
  refine ⟨hci, hcp ?_⟩
  rw [hcn]
  intro hx
  exact Option.noConfusion hx

/-- Witness for C1 (amended) at a fresh delegate: the theorem applied at
`add(icon7, 5)` on `initSt resFile` also yields the concrete P2 chain. -/
theorem c1_add_amended_witness :
    addOp envNoCache (initSt resFile) 7 3 = .ok (p2stA, p2evsA) ∧
    addOp envNoCache p2stA 8 1 = .ok (p2stB, []) ∧
    getCurrentIconOp envNoCache p2stB = .ok (some 7, p2stB, []) :=
  (c1_add_amended envNoCache (initSt resFile) 7 5 resFile [] rfl rfl rfl).2

/-!
## Claim C6: idempotence of `setCurrentIcon`
-/

/-- A delegate whose current icon `7` sits at slot `0`. -/
def c6st : St :=
  { resource := some resFile
    emitter := true
    disposables := true
    icons := some [some 7]
    numIcons := 1
    currentIcon := some 7
    currentPriority := 0
    destroyed := false }

/-- The events of one `setCurrentIcon(null)` call on `c6st`: the file
self-heal promotes icon `7` again, emitting an inner event before the
outer one. -/
def c6evsB : List Ev :=
  [Ev.cacheWrite resFile.path ⟨0, 0, "icon-7", []⟩,
   Ev.iconChange none (some 7),
   Ev.cacheWrite resFile.path ⟨0, 0, "icon-7", []⟩,
   Ev.iconChange (some 7) (some 7)]

/-- Counterexample to claim C6 as stated ("for every delegate and every
icon x, two successive `setCurrentIcon(x)` calls emit exactly one
icon-change event in total and the second call changes no state"): (a)
when `x` is already the current icon, both calls are entry no-ops and
zero events are emitted, not one; (b) when `x` is null on a file delegate
with a stored candidate, the self-heal restores the icon, so the second
call is not a no-op either — each of the two identical calls emits two
icon-change events (four in total). -/
theorem c6_counterexample :
    (setCurrentIconOp envNoCache c6st (some 7) none = .ok (c6st, []) ∧
     countIconChange [] = 0) ∧
    (setCurrentIconOp envNoCache c6st none none = .ok (c6st, c6evsB) ∧
     countIconChange c6evsB = 2) :=
  ⟨⟨rfl, rfl⟩, ⟨rfl, rfl⟩⟩

/-- Claim C6 (amended): for every delegate and every non-null icon `x`,
`setCurrentIcon(x)` is a no-op at entry on reference equality; of two
successive calls, the first emits exactly one icon-change event if `x`
differed from the current icon and none if it was reference-equal, and
the second call is always a complete no-op (same state, no events). -/
theorem c6_set_current_icon_idempotent (env : Env) (st : St) (x : Icon)
    (r : Resource) (hres : st.resource = some r) (hem : st.emitter = true)
    (htbl : (if r.isDirectory then env.directoryIcons else env.fileIcons).isSome = true) :
    ∃ st1 evs1,
      setCurrentIconOp env st (some x) none = .ok (st1, evs1) ∧
      setCurrentIconOp env st1 (some x) none = .ok (st1, []) ∧
      (st.currentIcon = some x → st1 = st ∧ evs1 = []) ∧
      (st.currentIcon ≠ some x →
        st1.currentIcon = some x ∧ countIconChange evs1 = 1) := by
  by_cases hc : st.currentIcon = some x
  · refine ⟨st, [], ?_, ?_, fun _ => ⟨rfl, rfl⟩, fun hcn => absurd hc hcn⟩
    · simp only [setCurrentIconOp, setCurrentIconSome, if_pos hc]
    · simp only [setCurrentIconOp, setCurrentIconSome, if_pos hc]
  · have hres2 : (promoteSt st x none).resource = some r := hres
    rcases serialiseOp_ok _ hres2 htbl with ⟨sevs, hs, hcnt⟩
    refine ⟨promoteSt st x none,
      sevs ++ emitIconChange (promoteSt st x none) st.currentIcon (some x),
      ?_, ?_, fun hcc => absurd hcc hc, fun _ => ⟨rfl, ?_⟩⟩
    · simp only [setCurrentIconOp, setCurrentIconSome, if_neg hc, hs]
    · have hc2 : (promoteSt st x none).currentIcon = some x := rfl
      simp only [setCurrentIconOp, setCurrentIconSome, if_pos hc2]
    · unfold countIconChange at hcnt ⊢
      rw [List.filter_append, List.length_append, hcnt]
      have he : (promoteSt st x none).emitter = true := hem
      simp [emitIconChange, he, isIconChange]

/-- The state after `setCurrentIcon(icon8)` on `c6st`. -/
def c6stW : St := { c6st with currentIcon := some 8 }

/-- The events of that call. -/
def c6evsW : List Ev :=
  [Ev.cacheWrite resFile.path ⟨0, 1, "icon-8", []⟩,
   Ev.iconChange (some 7) (some 8)]

/-- Witness for C6 (amended): on `c6st` (current icon `7`), promoting
icon `8` emits one icon-change event and the repeated call is a no-op. -/
theorem c6_set_current_icon_idempotent_witness :
    setCurrentIconOp envNoCache c6st (some 8) none = .ok (c6stW, c6evsW) ∧
    setCurrentIconOp envNoCache c6stW (some 8) none = .ok (c6stW, []) ∧
    countIconChange c6evsW = 1 := by
  rcases c6_set_current_icon_idempotent envNoCache c6st 8 resFile rfl rfl rfl with
    ⟨st1, evs1, hop, hsecond, _, _⟩
  have h0 : setCurrentIconOp envNoCache c6st (some 8) none = .ok (c6stW, c6evsW) := rfl
  have hpair := hop.symm.trans h0
  injection hpair with h2
  injection h2 with ha hb
  subst ha
  subst hb
  exact ⟨h0, hsecond, rfl⟩

/-!
## Claim C9: cache validation in `deserialise`
-/

/-- Claim C9: with the table loaded, `deserialise` accepts the cached
tuple through `add(icon, priority)` exactly when the table entry at
`iconIndex` exists and its class name equals the cached one; otherwise
the cache entry for the path is deleted; in every outcome the on-demand
strategy query is scheduled for a later turn. -/
theorem c9_deserialise_validation (env : Env) (st : St) (r : Resource)
    (entry : CacheEntry) (tbl : List Icon) (arr : List (Option Icon))
    (hres : st.resource = some r)
    (hcache : env.cache r.path = some entry)
    (htbl : (if r.isDirectory then env.directoryIcons else env.fileIcons) = some tbl)
    (harr : st.icons = some arr)
    (hp : 0 ≤ entry.priority) :
    (∀ icon, jsGet tbl entry.iconIndex = some icon →
      env.iconClass icon = entry.iconClass →
      ∃ st1 aevs, addOp env st icon entry.priority.toNat = .ok (st1, aevs) ∧
        deserialiseOp env st = .ok (st1, aevs ++ [Ev.scheduleQuery])) ∧
    (∀ icon, jsGet tbl entry.iconIndex = some icon →
      ¬ env.iconClass icon = entry.iconClass →
      deserialiseOp env st = .ok (st, [Ev.cacheDelete r.path, Ev.scheduleQuery])) ∧
    (jsGet tbl entry.iconIndex = none →
      deserialiseOp env st = .ok (st, [Ev.cacheDelete r.path, Ev.scheduleQuery])) := by
  have hnneg : ¬ entry.priority < 0 := not_lt.mpr hp
  refine ⟨?_, ?_, ?_⟩
  · intro icon hget hcls
    have hsome : (if r.isDirectory then env.directoryIcons else env.fileIcons).isSome
        = true := by
      rw [htbl]
      rfl
    rcases addOp_spec env st icon entry.priority.toNat r arr hres harr hsome with
      ⟨st1, aevs, hop, _⟩
    refine ⟨st1, aevs, hop, ?_⟩
    simp only [deserialiseOp, hres, hcache, htbl, if_neg hnneg, hget, if_pos hcls, hop]
  · intro icon hget hcls
    simp only [deserialiseOp, hres, hcache, htbl, if_neg hnneg, hget, if_neg hcls]
  · intro hget
    simp only [deserialiseOp, hres, hcache, htbl, if_neg hnneg, hget]

/-- A stale cache tuple: index `0` (icon `7` in the file table) but class
name recorded as one that no longer matches. -/
def c9entry : CacheEntry := ⟨3, 0, "icon-99", []⟩

/-- Environment whose cache holds `c9entry` for `/a/b.txt`. -/
def c9env : Env :=
  { envNoCache with
    cache := fun p => if p = resFile.path then some c9entry else none }

/-- Witness for C9: deserialising the mismatching tuple discards the
cache entry and schedules the on-demand query. -/
theorem c9_deserialise_validation_witness :
    deserialiseOp c9env (initSt resFile) =
      .ok (initSt resFile, [Ev.cacheDelete resFile.path, Ev.scheduleQuery]) :=
  (c9_deserialise_validation c9env (initSt resFile) resFile c9entry [7, 8] []
    rfl rfl rfl rfl (by decide)).2.1 7 rfl (by decide)

/-!
## Claim C5: `setCurrentIcon(null)` and the self-heal asymmetry
-/

theorem promoteSt_currentPriority_some (st : St) (tIc : Icon) (q : Int) :
    (promoteSt st tIc (some q)).currentPriority = q := rfl

/-- A file delegate with current icon `8` stored at slot `1`. -/
def c5cst : St :=
  { resource := some resFile
    emitter := true
    disposables := true
    icons := some [none, some 8]
    numIcons := 1
    currentIcon := some 8
    currentPriority := 1
    destroyed := false }

/-- The events of `setCurrentIcon(null)` on `c5cst`. -/
def c5evs : List Ev :=
  [Ev.cacheWrite resFile.path ⟨1, 1, "icon-8", []⟩,
   Ev.iconChange none (some 8),
   Ev.cacheWrite resFile.path ⟨1, 1, "icon-8", []⟩,
   Ev.iconChange (some 8) (some 8)]

/-- Counterexample to claim C5 as stated: on a file delegate with a
stored candidate, `setCurrentIcon(null)` emits TWO icon-change events
(the inner self-heal promotion plus the outer transition), not exactly
one. -/
theorem c5_counterexample :
    setCurrentIconOp envNoCache c5cst none none = .ok (c5cst, c5evs) ∧
    countIconChange c5evs = 2 ∧
    ¬ (2 : Nat) = 1 :=
  ⟨rfl, rfl, by decide⟩

/-- Claim C5 (amended): for a live non-delegated delegate whose current
icon is non-null, `setCurrentIcon(null)` on a non-directory resource
immediately re-runs resolution, so a file with a stored candidate ends
with a non-null icon again, while a directory is left with a null
current icon; in both of those cases the call re-serialises through the
Cache Bridge and emits a final icon-change event carrying the observed
`{from, to}` even when `to` is reference-equal to `from` — but the file
self-heal emits an additional inner promotion event first (two in
total), and a call when the current icon is already null is a complete
no-op (no serialisation, no event). -/
theorem c5_null_selfheal (env : Env) (st : St) (r : Resource)
    (arr : List (Option Icon)) (ft : List Icon)
    (hres : st.resource = some r) (harr : st.icons = some arr)
    (hem : st.emitter = true) (hfr : env.frozen = false)
    (hft : env.fileIcons = some ft) :
    (st.currentIcon = none → setCurrentIconOp env st none none = .ok (st, [])) ∧
    (∀ a, st.currentIcon = some a → r.isDirectory = true →
      setCurrentIconOp env st none none =
        .ok (clearSt st none,
             [Ev.cacheDelete r.path, Ev.iconChange (some a) none])) ∧
    (∀ a i b, st.currentIcon = some a → r.isDirectory = false →
      st.numIcons > 0 → findTop arr = some (i, b) →
      setCurrentIconOp env st none none =
        .ok (promoteSt (clearSt st none) b (some (i : Int)),
          [Ev.cacheWrite r.path
             ⟨(i : Int), jsIndexOf ft b, env.iconClass b, env.iconColour b⟩,
           Ev.iconChange none (some b),
           Ev.cacheWrite r.path
             ⟨(i : Int), jsIndexOf ft b, env.iconClass b, env.iconColour b⟩,
           Ev.iconChange (some a) (some b)]) ∧
      (promoteSt (clearSt st none) b (some (i : Int))).currentIcon = some b) := by
  refine ⟨?_, ?_, ?_⟩
  · intro h0
    simp only [setCurrentIconOp, h0]
  · intro a hcur hdir
    have h1 : serialiseOp env (clearSt st none) = .ok [Ev.cacheDelete r.path] := by
      simp [serialiseOp, hfr, clearSt_resource, hres, clearSt_currentIcon]
    simp [setCurrentIconOp, hcur, clearSt_resource, hres, hdir, h1,
      emitIconChange, clearSt_emitter, hem]
  · intro a i b hcur hdir hn htop
    have hserial : serialiseOp env (promoteSt (clearSt st none) b (some (i : Int)))
        = .ok [Ev.cacheWrite r.path
            ⟨(i : Int), jsIndexOf ft b, env.iconClass b, env.iconColour b⟩] := by
      simp [serialiseOp, hfr, promoteSt_resource, clearSt_resource, hres,
        promoteSt_currentIcon, hdir, hft, promoteSt_currentPriority_some]
    have hset : setCurrentIconSome env (clearSt st none) b (some (i : Int))
        = .ok (promoteSt (clearSt st none) b (some (i : Int)),
            [Ev.cacheWrite r.path
               ⟨(i : Int), jsIndexOf ft b, env.iconClass b, env.iconColour b⟩,
             Ev.iconChange none (some b)]) := by
      simp [setCurrentIconSome, clearSt_currentIcon, hserial,
        emitIconChange, promoteSt_emitter, clearSt_emitter, hem]
    have hget : getCurrentIconOp env (clearSt st none)
        = .ok (some b, promoteSt (clearSt st none) b (some (i : Int)),
            [Ev.cacheWrite r.path
               ⟨(i : Int), jsIndexOf ft b, env.iconClass b, env.iconColour b⟩,
             Ev.iconChange none (some b)]) := by
      simp [getCurrentIconOp, clearSt_currentIcon, clearSt_numIcons, hn,
        clearSt_icons, harr, htop, hset]
    refine ⟨?_, rfl⟩
    simp [setCurrentIconOp, hcur, clearSt_resource, hres, hdir, hget, hserial,
      emitIconChange, promoteSt_emitter, clearSt_emitter, hem]

/-- A directory delegate with current icon `9` stored at slot `0`. -/
def c5dst : St :=
  { resource := some resDir
    emitter := true
    disposables := true
    icons := some [some 9]
    numIcons := 1
    currentIcon := some 9
    currentPriority := 0
    destroyed := false }

/-- Witness for C5 (amended): the directory case emits the single
delete/transition pair and ends with a null icon; the file case
self-heals back to icon `8` with the inner and outer events. -/
theorem c5_null_selfheal_witness :
    setCurrentIconOp envNoCache c5dst none none =
      .ok (clearSt c5dst none,
           [Ev.cacheDelete resDir.path, Ev.iconChange (some 9) none]) ∧
    setCurrentIconOp envNoCache c5cst none none =
      .ok (promoteSt (clearSt c5cst none) 8 (some 1), c5evs) := by
  constructor
  · exact (c5_null_selfheal envNoCache c5dst resDir [some 9] [7, 8]
      rfl rfl rfl rfl rfl).2.1 9 rfl rfl
  · exact ((c5_null_selfheal envNoCache c5cst resFile [none, some 8] [7, 8]
      rfl rfl rfl rfl rfl).2.2 8 1 8 rfl rfl (by decide) rfl).1

/-!
## Claim C2: the Delegation Link and master destruction
-/

/-- A symlink's resource. -/
def linkRes : Resource := ⟨"/a/link", false, true, false⟩

/-- The link target's resource. -/
def targetRes : Resource := ⟨"/a/target", true, false, false⟩

/-- The slave delegate before delegation: it still owns icon `7` at
slot `5` from an earlier `add(icon7, 5)`. -/
def c2slaveSt : St :=
  { resource := some linkRes
    emitter := true
    disposables := true
    icons := some [none, none, none, none, none, some 7]
    numIcons := 1
    currentIcon := some 7
    currentPriority := 5
    destroyed := false }

/-- The master delegate, resolved to icon `9`. -/
def c2masterSt : St :=
  { resource := some targetRes
    emitter := true
    disposables := true
    icons := some [some 9]
    numIcons := 1
    currentIcon := some 9
    currentPriority := 0
    destroyed := false }

/-- The two-delegate system before `slave.master = M`. -/
def c2sys0 : Sys :=
  { slave := c2slaveSt
    delegated := false
    masterRef := false
    masterSt := c2masterSt
    mMasterIsSlave := false
    origIcon := none }

/-- The system after the assignment. -/
def c2sys1 : Sys :=
  { slave := c2slaveSt
    delegated := true
    masterRef := true
    masterSt := c2masterSt
    mMasterIsSlave := false
    origIcon := some 7 }

/-- The system after the master has been destroyed. -/
def c2sys2 : Sys :=
  { slave := c2slaveSt
    delegated := true
    masterRef := false
    masterSt := destroyedSt c2masterSt
    mMasterIsSlave := false
    origIcon := some 7 }

/-- Claim C2 (code bug): after `master = M` the slave's `getCurrentIcon()`
does return exactly `M.getCurrentIcon()` (icon `9`), and destroying `M`
does clear the slave's `master` to null — but the promised re-resolution
from the slave's own Priority Store then THROWS: the slave still holds
icon `7` at slot `5`, the scan finds it, and the promotion executes
`this.currentIcon = to` against the getter-only accessor installed by
the delegation, a strict-mode TypeError (`.error ()`), instead of
returning icon `7`. -/
theorem c2_delegation_master_destroy :
    setMasterSys envNoCache c2sys0 true =
      .ok (c2sys1, [Ev.masterChange false true, Ev.iconChange (some 7) (some 9)]) ∧
    getCurrentIconSys envNoCache c2sys1 = .ok (some 9, c2sys1, []) ∧
    getCurrentIconOp envNoCache c2masterSt = .ok (some 9, c2masterSt, []) ∧
    destroyMasterSys envNoCache c2sys1 =
      .ok (c2sys2, [Ev.destroy, Ev.masterChange true false, Ev.iconChange (some 7) none]) ∧
    c2sys2.masterRef = false ∧
    c2sys2.slave.icons = some [none, none, none, none, none, some 7] ∧
    c2sys2.slave.numIcons = 1 ∧
    getCurrentIconSys envNoCache c2sys2 = .error () :=
  ⟨rfl, rfl, rfl, rfl, rfl, rfl, rfl, rfl⟩
